import Mathlib

/-!
Verification development for the dartboard scoring core of the repository
(`geometry/board.py`, class `Dartboard`).

The Python floats are idealised as real numbers.  Angles are genuine reals;
`math.atan2(y, x)` is modelled as `Complex.arg ⟨x, y⟩` (same range `(-π, π]`,
same convention `atan2(0, 0) = 0`), `math.pi` as `Real.pi`, `math.sqrt` as
`Real.sqrt`, and Python `int()` truncation toward zero as `intTrunc`.
Python list indexing (including negative-index wraparound and `IndexError`)
is modelled by `pyListGet`, with `none` standing for a raised `IndexError`;
consequently `dart_result_for_point` returns an `Option`, `none` meaning the
call raised instead of producing a result.
-/

set_option maxHeartbeats 1000000

/-- The seven ring labels returned by `Dartboard.ring_for_point`
(`"INNER BULL"`, `"OUTER BULL"`, `"MISS"`, `"TRIPLE"`, `"DOUBLE"`,
`"SINGLE_INNER"`, `"SINGLE_OUTER"` in the Python source). -/
inductive BoardRing where
  | INNER_BULL
  | OUTER_BULL
  | MISS
  | TRIPLE
  | DOUBLE
  | SINGLE_INNER
  | SINGLE_OUTER
deriving DecidableEq, Repr

/-- Embedding of `Dartboard.SECTOR_NUMBERS`: standard dartboard order starting at 20 at the
top, clockwise. -/
def SECTOR_NUMBERS : List ℕ :=
  [20, 1, 18, 4, 13,
   6, 10, 15, 2, 17,
   3, 19, 7, 16, 8,
   11, 14, 9, 12, 5]

/-- The state of a constructed `Dartboard` object: the fields set by
`Dartboard.__init__` (center, radius, angle offset in radians, and the six
absolute ring radii in pixels). -/
structure DartboardModel where
  cx : ℝ
  cy : ℝ
  radius : ℝ
  angle_offset_radians : ℝ
  inner_bull : ℝ
  outer_bull : ℝ
  triple_inner : ℝ
  triple_outer : ℝ
  double_inner : ℝ
  double_outer : ℝ

/-- Embedding of `Dartboard.__init__(center_x, center_y, radius)` with the values read from
`config/rings.json` passed explicitly.  The constructor performs no
validation whatsoever: it converts the angle offset to radians
(`math.radians`) and scales each percentage (`pct / 100.0 * R`), then returns.
There is no `ConfigurationError` anywhere in the repository. -/
noncomputable def Dartboard_init (center_x center_y radius angle_offset_degrees
    inner_bull_pct outer_bull_pct triple_inner_pct triple_outer_pct
    double_inner_pct double_outer_pct : ℝ) : DartboardModel :=
  ⟨center_x, center_y, radius,
   angle_offset_degrees * (Real.pi / 180),
   inner_bull_pct / 100 * radius,
   outer_bull_pct / 100 * radius,
   triple_inner_pct / 100 * radius,
   triple_outer_pct / 100 * radius,
   double_inner_pct / 100 * radius,
   double_outer_pct / 100 * radius⟩

/-- Embedding of `Dartboard.distance_from_center`: `math.sqrt(dx*dx + dy*dy)`. -/
noncomputable def distance_from_center (b : DartboardModel) (x y : ℝ) : ℝ :=
  Real.sqrt ((x - b.cx) * (x - b.cx) + (y - b.cy) * (y - b.cy))

/-- The conditional cascade of `Dartboard.ring_for_point` as a function of the
already-computed distance `d` (the body of the method after `d = ...`,
transcribed branch by branch; every branch of the Python method returns, so
the sequence of `if` statements is one first-match-wins cascade). -/
noncomputable def ringForDist (b : DartboardModel) (d : ℝ) : BoardRing :=
  if d ≤ b.inner_bull then .INNER_BULL
  else if d ≤ b.outer_bull then .OUTER_BULL
  else if d > b.radius then .MISS
  else if b.triple_inner ≤ d ∧ d ≤ b.triple_outer then .TRIPLE
  else if b.double_inner ≤ d ∧ d ≤ b.double_outer then .DOUBLE
  else if d < b.triple_inner then .SINGLE_INNER
  else if d < b.double_inner then .SINGLE_OUTER
  else .MISS

/-- Embedding of `Dartboard.ring_for_point`: computes `d = self.distance_from_center(x, y)`
and runs the classification cascade on it. -/
noncomputable def ring_for_point (b : DartboardModel) (x y : ℝ) : BoardRing :=
  ringForDist b (distance_from_center b x y)

/-- The ring classification exactly as the specification words it: Euclidean
distance `d`, then the strict priority list (first match wins), with the final
defensive `MISS` fallback.  Written from the specification text, to be
compared with `ring_for_point` (which is written from the source). -/
noncomputable def ringSpecCascade (b : DartboardModel) (d : ℝ) : BoardRing :=
  if d ≤ b.inner_bull then .INNER_BULL
  else if d ≤ b.outer_bull then .OUTER_BULL
  else if d > b.radius then .MISS
  else if b.triple_inner ≤ d ∧ d ≤ b.triple_outer then .TRIPLE
  else if b.double_inner ≤ d ∧ d ≤ b.double_outer then .DOUBLE
  else if d < b.triple_inner then .SINGLE_INNER
  else if d < b.double_inner then .SINGLE_OUTER
  else .MISS

/-- The subterm `math.atan2(dx, -dy)` of `Dartboard.sector_index_for_point`, i.e. the
angle measured clockwise from straight up, before the offset is added.
`atan2(y, x)` is `Complex.arg ⟨x, y⟩`: both have range `(-π, π]` and both are
`0` at the origin. -/
noncomputable def rawAngle (b : DartboardModel) (x y : ℝ) : ℝ :=
  Complex.arg ⟨-(y - b.cy), x - b.cx⟩

/-- The single normalization step of `Dartboard.sector_index_for_point`:
`if theta < 0: theta += 2π  elif theta >= 2π: theta -= 2π`. -/
noncomputable def normalizeAngle (theta : ℝ) : ℝ :=
  if theta < 0 then theta + 2 * Real.pi
  else if theta ≥ 2 * Real.pi then theta - 2 * Real.pi
  else theta

/-- Python `int()` applied to a real: truncation toward zero. -/
noncomputable def intTrunc (r : ℝ) : ℤ :=
  if r < 0 then -(⌊-r⌋) else ⌊r⌋

/-- Embedding of `Dartboard.sector_index_for_point`: offset-adjusted clockwise angle,
one normalization step, then `int(theta / sector_width)` with
`sector_width = 2π / 20`. -/
noncomputable def sector_index_for_point (b : DartboardModel) (x y : ℝ) : ℤ :=
  intTrunc (normalizeAngle (rawAngle b x y + b.angle_offset_radians) /
    (2 * Real.pi / 20))

/-- Python list subscription `l[i]` for a possibly negative index: indices in
`[-len, -1]` wrap around, anything else raises `IndexError` (modelled as
`none`). -/
def pyListGet (l : List ℕ) (i : ℤ) : Option ℕ :=
  if 0 ≤ i then l.get? i.toNat
  else if 0 ≤ i + l.length then l.get? (i + l.length).toNat
  else none

/-- Embedding of `Dartboard.number_for_point`: `self.SECTOR_NUMBERS[idx]`.  `none` models a
raised `IndexError`. -/
noncomputable def number_for_point (b : DartboardModel) (x y : ℝ) : Option ℕ :=
  pyListGet SECTOR_NUMBERS (sector_index_for_point b x y)

/-- The dictionary returned by `Dartboard.dart_result_for_point`. -/
structure ScoreResult where
  code : String
  ring : BoardRing
  number : Option ℕ
  points : ℕ
deriving DecidableEq, Repr

/-- Embedding of `Dartboard.dart_result_for_point`: classify the ring; bulls and misses
return fixed records immediately (no sector lookup); otherwise look up the
sector number and combine.  A `none` from the sector lookup (Python
`IndexError`) aborts the call, hence the `Option` result. -/
noncomputable def dart_result_for_point (b : DartboardModel) (x y : ℝ) :
    Option ScoreResult :=
  let ring := ring_for_point b x y
  if ring = BoardRing.INNER_BULL then some ⟨"IB", ring, none, 50⟩
  else if ring = BoardRing.OUTER_BULL then some ⟨"OB", ring, none, 25⟩
  else if ring = BoardRing.MISS then some ⟨"MISS", ring, none, 0⟩
  else
    match number_for_point b x y with
    | none => none
    | some number =>
      if ring = BoardRing.TRIPLE then
        some ⟨"T" ++ toString number, ring, some number, 3 * number⟩
      else if ring = BoardRing.DOUBLE then
        some ⟨"D" ++ toString number, ring, some number, 2 * number⟩
      else
        some ⟨"S" ++ toString number, ring, some number, number⟩

/-- The monotonic ring-ordering invariant of the specification (§3):
`0 < inner_bull ≤ outer_bull ≤ triple_inner ≤ triple_outer ≤ double_inner ≤
double_outer ≤ radius`. -/
def Valid (b : DartboardModel) : Prop :=
  0 < b.inner_bull ∧ b.inner_bull ≤ b.outer_bull ∧
  b.outer_bull ≤ b.triple_inner ∧ b.triple_inner ≤ b.triple_outer ∧
  b.triple_outer ≤ b.double_inner ∧ b.double_inner ≤ b.double_outer ∧
  b.double_outer ≤ b.radius

/-- Non-degenerate calibration: consecutive ring radii strictly separated, so
every ring has positive radial width. -/
def StrictValid (b : DartboardModel) : Prop :=
  0 < b.inner_bull ∧ b.inner_bull < b.outer_bull ∧
  b.outer_bull < b.triple_inner ∧ b.triple_inner < b.triple_outer ∧
  b.triple_outer < b.double_inner ∧ b.double_inner < b.double_outer ∧
  b.double_outer ≤ b.radius

/-- Position of a ring in the radial order in which rings occur as the
distance from center grows. -/
def ringRank : BoardRing → ℕ
  | .INNER_BULL => 0
  | .OUTER_BULL => 1
  | .SINGLE_INNER => 2
  | .TRIPLE => 3
  | .SINGLE_OUTER => 4
  | .DOUBLE => 5
  | .MISS => 6

/-- A well-calibrated sample model: center `(0, 0)`, radius `100`, zero angle
offset, ring radii `2, 5, 60, 70, 90, 100`. -/
noncomputable def bSample : DartboardModel :=
  ⟨0, 0, 100, 0, 2, 5, 60, 70, 90, 100⟩

/-- The same calibration but with an angle offset of `15` radians (≈ 859°),
as an unvalidated `rings.json` may supply. -/
noncomputable def bOffset15 : DartboardModel :=
  ⟨0, 0, 100, 15, 2, 5, 60, 70, 90, 100⟩

/-- Claim C1: for every point and every constructed model, ring classification
computes the Euclidean distance from center and returns the first matching
case of the strict priority order of the spec (inner bull, outer bull, miss,
triple, double, single-inner, single-outer, miss fallback). -/
theorem C1_ring_priority_order (b : DartboardModel) (x y : ℝ) :
    ring_for_point b x y =
      ringSpecCascade b (Real.sqrt ((x - b.cx) ^ 2 + (y - b.cy) ^ 2)) := by
  have h : (x - b.cx) ^ 2 + (y - b.cy) ^ 2 =
      (x - b.cx) * (x - b.cx) + (y - b.cy) * (y - b.cy) := by ring
  rw [h]
  rfl

/-- Claim C8: sector lookup is total at the exact center: the raw angle
`atan2(0, 0)` is `0` by convention, and the sector index at the center is the
(well-defined) index obtained from the angle offset alone — no division by
zero and no failure occurs. -/
theorem C8_center_sector_total (b : DartboardModel) :
    rawAngle b b.cx b.cy = 0 ∧
      sector_index_for_point b b.cx b.cy =
        intTrunc (normalizeAngle b.angle_offset_radians / (2 * Real.pi / 20)) := by
  have h0 : rawAngle b b.cx b.cy = 0 := by
    unfold rawAngle
    have : (⟨-(b.cy - b.cy), b.cx - b.cx⟩ : ℂ) = 0 := by
      apply Complex.ext <;> simp
    rw [this, Complex.arg_zero]
  refine ⟨h0, ?_⟩
  unfold sector_index_for_point
  rw [h0, zero_add]

/-- Claim C7: for every validly constructed model, classifying the exact
center point yields the inner-bull record with 50 points. -/
theorem C7_center_inner_bull (b : DartboardModel) (hb : Valid b) :
    dart_result_for_point b b.cx b.cy =
      some ⟨"IB", BoardRing.INNER_BULL, none, 50⟩ := by
  have hd : distance_from_center b b.cx b.cy = 0 := by
    unfold distance_from_center
    simp
  have hr : ring_for_point b b.cx b.cy = BoardRing.INNER_BULL := by
    unfold ring_for_point ringForDist
    rw [hd, if_pos (le_of_lt hb.1)]
  simp only [dart_result_for_point]
  rw [hr]
  simp

/-- Witness for C7 at the sample model. -/
theorem C7_center_inner_bull_witness :
    Valid bSample ∧
      dart_result_for_point bSample bSample.cx bSample.cy =
        some ⟨"IB", BoardRing.INNER_BULL, none, 50⟩ := by
  have hv : Valid bSample := by norm_num [Valid, bSample]
  exact ⟨hv, C7_center_inner_bull bSample hv⟩

/-- Claim C3: under the model invariant of the spec, every point strictly farther
from center than the radius is scored as a MISS record with 0 points and no
sector number, regardless of angle. -/
theorem C3_far_is_miss (b : DartboardModel) (hb : Valid b) (x y : ℝ)
    (hd : distance_from_center b x y > b.radius) :
    dart_result_for_point b x y = some ⟨"MISS", BoardRing.MISS, none, 0⟩ := by
  obtain ⟨h1, h2, h3, h4, h5, h6, h7⟩ := hb
  have hr : ring_for_point b x y = BoardRing.MISS := by
    unfold ring_for_point ringForDist
    rw [if_neg (by linarith), if_neg (by linarith), if_pos hd]
  simp only [dart_result_for_point]
  rw [hr]
  simp

/-- Witness for C3: the sample model and the point `(200, 0)` at distance
`200 > 100`. -/
theorem C3_far_is_miss_witness :
    Valid bSample ∧ distance_from_center bSample 200 0 > bSample.radius ∧
      dart_result_for_point bSample 200 0 =
        some ⟨"MISS", BoardRing.MISS, none, 0⟩ := by
  have hv : Valid bSample := by norm_num [Valid, bSample]
  have hd : distance_from_center bSample 200 0 = 200 := by
    unfold distance_from_center
    rw [show ((200 : ℝ) - bSample.cx) * (200 - bSample.cx) +
        (0 - bSample.cy) * (0 - bSample.cy) = 200 ^ 2 by norm_num [bSample]]
    exact Real.sqrt_sq (by norm_num)
  have hgt : distance_from_center bSample 200 0 > bSample.radius := by
    rw [hd]; norm_num [bSample]
  exact ⟨hv, hgt, C3_far_is_miss bSample hv 200 0 hgt⟩

/-- Claim C2 (refuting theorem): `Dartboard.__init__` performs no validation.
Constructing with `outer_bull_pct = 50 > triple_inner_pct = 40` raises
nothing and produces a model whose outer-bull radius exceeds its triple-inner
radius, violating the ordering invariant; no `ConfigurationError` exists in
the code. -/
theorem C2_construction_unvalidated :
    (Dartboard_init 400 400 100 0 3 50 40 70 90 100).outer_bull = 50 ∧
    (Dartboard_init 400 400 100 0 3 50 40 70 90 100).triple_inner = 40 ∧
    ¬ Valid (Dartboard_init 400 400 100 0 3 50 40 70 90 100) := by
  refine ⟨by norm_num [Dartboard_init], by norm_num [Dartboard_init], ?_⟩
  intro hv
  have h := hv.2.2.1
  norm_num [Dartboard_init] at h

/-- Claim C6: under the ordering invariant the ring is monotone in the
distance (ranked INNER_BULL, OUTER_BULL, SINGLE_INNER, TRIPLE, SINGLE_OUTER,
DOUBLE, MISS), and under a non-degenerate calibration every ring in that
order is actually attained, so the rings appear in exactly that order as the
distance grows. -/
theorem C6_ring_order_monotone (b : DartboardModel) :
    (Valid b → ∀ d1 d2 : ℝ, d1 ≤ d2 →
      ringRank (ringForDist b d1) ≤ ringRank (ringForDist b d2)) ∧
    (StrictValid b → ∀ rg : BoardRing, ∃ d : ℝ, ringForDist b d = rg) := by
  constructor
  · rintro ⟨v1, v2, v3, v4, v5, v6, v7⟩ d1 d2 h12
    unfold ringForDist
    split_ifs <;>
      simp only [ringRank] <;>
      first
        | omega
        | (exfalso
           simp only [not_and_or, not_le, not_lt] at *
           (try casesm* _ ∨ _ , _ ∧ _) <;> linarith)
  · rintro ⟨v1, v2, v3, v4, v5, v6, v7⟩ rg
    cases rg with
    | INNER_BULL =>
        refine ⟨0, ?_⟩
        unfold ringForDist
        rw [if_pos (le_of_lt v1)]
    | OUTER_BULL =>
        refine ⟨b.outer_bull, ?_⟩
        unfold ringForDist
        rw [if_neg (not_le.mpr v2), if_pos le_rfl]
    | SINGLE_INNER =>
        refine ⟨(b.outer_bull + b.triple_inner) / 2, ?_⟩
        unfold ringForDist
        rw [if_neg (not_le.mpr (by linarith)), if_neg (not_le.mpr (by linarith)),
          if_neg (not_lt.mpr (by linarith)),
          if_neg (by rintro ⟨hh, h2⟩; linarith),
          if_neg (by rintro ⟨hh, h2⟩; linarith),
          if_pos (show (b.outer_bull + b.triple_inner) / 2 < b.triple_inner by linarith)]
    | TRIPLE =>
        refine ⟨b.triple_inner, ?_⟩
        unfold ringForDist
        rw [if_neg (not_le.mpr (by linarith)), if_neg (not_le.mpr (by linarith)),
          if_neg (not_lt.mpr (by linarith)),
          if_pos ⟨le_rfl, le_of_lt v4⟩]
    | SINGLE_OUTER =>
        refine ⟨(b.triple_outer + b.double_inner) / 2, ?_⟩
        unfold ringForDist
        rw [if_neg (not_le.mpr (by linarith)), if_neg (not_le.mpr (by linarith)),
          if_neg (not_lt.mpr (by linarith)),
          if_neg (by rintro ⟨hh, h2⟩; linarith),
          if_neg (by rintro ⟨hh, h2⟩; linarith),
          if_neg (not_lt.mpr (by linarith)),
          if_pos (show (b.triple_outer + b.double_inner) / 2 < b.double_inner by linarith)]
    | DOUBLE =>
        refine ⟨b.double_inner, ?_⟩
        unfold ringForDist
        rw [if_neg (not_le.mpr (by linarith)), if_neg (not_le.mpr (by linarith)),
          if_neg (not_lt.mpr (by linarith)),
          if_neg (by rintro ⟨hh, h2⟩; linarith),
          if_pos ⟨le_rfl, le_of_lt v6⟩]
    | MISS =>
        refine ⟨b.radius + 1, ?_⟩
        unfold ringForDist
        rw [if_neg (not_le.mpr (by linarith)), if_neg (not_le.mpr (by linarith)),
          if_pos (by linarith)]

/-- Witness for C6 at the sample model. -/
theorem C6_ring_order_monotone_witness :
    (Valid bSample ∧ (1 : ℝ) ≤ 2 ∧
      ringRank (ringForDist bSample 1) ≤ ringRank (ringForDist bSample 2)) ∧
    (StrictValid bSample ∧ ∃ d : ℝ, ringForDist bSample d = BoardRing.TRIPLE) := by
  have hv : Valid bSample := by norm_num [Valid, bSample]
  have hs : StrictValid bSample := by norm_num [StrictValid, bSample]
  exact ⟨⟨hv, by norm_num,
      (C6_ring_order_monotone bSample).1 hv 1 2 (by norm_num)⟩,
    ⟨hs, (C6_ring_order_monotone bSample).2 hs BoardRing.TRIPLE⟩⟩

/-- Distance of the sample point `(0, -65)` from the sample center `(0, 0)`. -/
theorem bSample_dist_65 : distance_from_center bSample 0 (-65) = 65 := by
  unfold distance_from_center
  rw [show ((0 : ℝ) - bSample.cx) * (0 - bSample.cx) +
      ((-65 : ℝ) - bSample.cy) * ((-65 : ℝ) - bSample.cy) = 65 ^ 2 by
    norm_num [bSample]]
  exact Real.sqrt_sq (by norm_num)

/-- The sample point lies in the triple ring of the sample model. -/
theorem bSample_ring_triple :
    ring_for_point bSample 0 (-65) = BoardRing.TRIPLE := by
  unfold ring_for_point
  rw [bSample_dist_65]
  unfold ringForDist
  split_ifs <;> first | rfl | (exfalso; norm_num [bSample] at *)

/-- The raw angle of the sample point (straight up from center) is `0`. -/
theorem bSample_raw_angle : rawAngle bSample 0 (-65) = 0 := by
  unfold rawAngle
  have hc : (⟨-((-65 : ℝ) - bSample.cy), (0 : ℝ) - bSample.cx⟩ : ℂ) =
      ((65 : ℝ) : ℂ) := by
    apply Complex.ext <;> norm_num [bSample]
  rw [hc]
  exact Complex.arg_ofReal_of_nonneg (by norm_num)

/-- The sample point gets sector index `0`. -/
theorem bSample_sector_index : sector_index_for_point bSample 0 (-65) = 0 := by
  unfold sector_index_for_point
  rw [bSample_raw_angle, show bSample.angle_offset_radians = 0 from rfl,
    add_zero]
  have h0 : normalizeAngle 0 = 0 := by
    unfold normalizeAngle
    rw [if_neg (by norm_num), if_neg (not_le.mpr (by positivity))]
  rw [h0, zero_div]
  unfold intTrunc
  rw [if_neg (lt_irrefl 0)]
  exact Int.floor_zero

/-- The sample point gets sector number `20`. -/
theorem bSample_number : number_for_point bSample 0 (-65) = some 20 := by
  unfold number_for_point
  rw [bSample_sector_index]
  rfl

/-- Full evaluation of the scoring pipeline at the sample triple-ring point. -/
theorem bSample_triple_result :
    dart_result_for_point bSample 0 (-65) =
      some ⟨"T20", BoardRing.TRIPLE, some 20, 60⟩ := by
  simp only [dart_result_for_point]
  rw [bSample_ring_triple, bSample_number]
  rfl

/-- Claim C5: whenever classification produces a record, a TRIPLE record has
code `T<N>` and `3 × N` points, a DOUBLE record `D<N>` and `2 × N`, and a
single record `S<N>` and `N` points, where `N` is the sector number computed
for the point. -/
theorem C5_code_points_multipliers (b : DartboardModel) (x y : ℝ)
    (r : ScoreResult) (h : dart_result_for_point b x y = some r) :
    (r.ring = BoardRing.TRIPLE → ∃ n, number_for_point b x y = some n ∧
      r.code = "T" ++ toString n ∧ r.number = some n ∧ r.points = 3 * n) ∧
    (r.ring = BoardRing.DOUBLE → ∃ n, number_for_point b x y = some n ∧
      r.code = "D" ++ toString n ∧ r.number = some n ∧ r.points = 2 * n) ∧
    ((r.ring = BoardRing.SINGLE_INNER ∨ r.ring = BoardRing.SINGLE_OUTER) →
      ∃ n, number_for_point b x y = some n ∧
      r.code = "S" ++ toString n ∧ r.number = some n ∧ r.points = n) := by
  simp only [dart_result_for_point] at h
  cases hr : ring_for_point b x y <;> rw [hr] at h <;> simp at h
  case INNER_BULL => subst h; simp
  case OUTER_BULL => subst h; simp
  case MISS => subst h; simp
  case TRIPLE =>
    cases hn : number_for_point b x y <;> rw [hn] at h <;> simp at h
    subst h
    exact ⟨fun _ => ⟨_, rfl, rfl, rfl, rfl⟩, by simp, by simp⟩
  case DOUBLE =>
    cases hn : number_for_point b x y <;> rw [hn] at h <;> simp at h
    subst h
    exact ⟨by simp, fun _ => ⟨_, rfl, rfl, rfl, rfl⟩, by simp⟩
  case SINGLE_INNER =>
    cases hn : number_for_point b x y <;> rw [hn] at h <;> simp at h
    subst h
    exact ⟨by simp, by simp, fun _ => ⟨_, rfl, rfl, rfl, rfl⟩⟩
  case SINGLE_OUTER =>
    cases hn : number_for_point b x y <;> rw [hn] at h <;> simp at h
    subst h
    exact ⟨by simp, by simp, fun _ => ⟨_, rfl, rfl, rfl, rfl⟩⟩

/-- Witness for C5 at the sample triple-ring point. -/
theorem C5_code_points_multipliers_witness :
    dart_result_for_point bSample 0 (-65) =
      some ⟨"T20", BoardRing.TRIPLE, some 20, 60⟩ ∧
    ∃ n, number_for_point bSample 0 (-65) = some n ∧
      "T20" = "T" ++ toString n ∧ (some 20 : Option ℕ) = some n ∧
      60 = 3 * n := by
  refine ⟨bSample_triple_result, ?_⟩
  exact (C5_code_points_multipliers bSample 0 (-65) _ bSample_triple_result).1
    rfl

/-- Any number the sector lookup ever returns is an entry of
`SECTOR_NUMBERS`, hence lies in `1..20`. -/
theorem number_for_point_in_range (b : DartboardModel) (x y : ℝ) (n : ℕ)
    (h : number_for_point b x y = some n) : 1 ≤ n ∧ n ≤ 20 := by
  have hmem : n ∈ SECTOR_NUMBERS := by
    unfold number_for_point pyListGet at h
    split_ifs at h
    · exact List.get?_mem h
    · exact List.get?_mem h
  have hall : ∀ m ∈ SECTOR_NUMBERS, 1 ≤ m ∧ m ≤ 20 := by decide
  exact hall n hmem

/-- Claim C10: the fixed sector table is a permutation of `1..20`, and every
produced record in a numbered ring carries a number in `1..20` with at most
60 points. -/
theorem C10_sector_table_permutation :
    List.Perm SECTOR_NUMBERS
      [1, 2, 3, 4, 5, 6, 7, 8, 9, 10,
       11, 12, 13, 14, 15, 16, 17, 18, 19, 20] ∧
    ∀ (b : DartboardModel) (x y : ℝ) (r : ScoreResult),
      dart_result_for_point b x y = some r →
      (r.ring = BoardRing.TRIPLE ∨ r.ring = BoardRing.DOUBLE ∨
        r.ring = BoardRing.SINGLE_INNER ∨ r.ring = BoardRing.SINGLE_OUTER) →
      ∃ n, r.number = some n ∧ 1 ≤ n ∧ n ≤ 20 ∧ r.points ≤ 60 := by
  constructor
  · decide
  · intro b x y r h hring
    simp only [dart_result_for_point] at h
    cases hr : ring_for_point b x y <;> rw [hr] at h <;> simp at h
    case INNER_BULL => subst h; simp at hring
    case OUTER_BULL => subst h; simp at hring
    case MISS => subst h; simp at hring
    case TRIPLE =>
      cases hn : number_for_point b x y <;> rw [hn] at h <;> simp at h
      subst h
      obtain ⟨hl, hu⟩ := number_for_point_in_range b x y _ hn
      exact ⟨_, rfl, hl, hu, by simp; omega⟩
    case DOUBLE =>
      cases hn : number_for_point b x y <;> rw [hn] at h <;> simp at h
      subst h
      obtain ⟨hl, hu⟩ := number_for_point_in_range b x y _ hn
      exact ⟨_, rfl, hl, hu, by simp; omega⟩
    case SINGLE_INNER =>
      cases hn : number_for_point b x y <;> rw [hn] at h <;> simp at h
      subst h
      obtain ⟨hl, hu⟩ := number_for_point_in_range b x y _ hn
      exact ⟨_, rfl, hl, hu, by simp; omega⟩
    case SINGLE_OUTER =>
      cases hn : number_for_point b x y <;> rw [hn] at h <;> simp at h
      subst h
      obtain ⟨hl, hu⟩ := number_for_point_in_range b x y _ hn
      exact ⟨_, rfl, hl, hu, by simp; omega⟩

/-- Witness for C10 at the sample triple-ring point. -/
theorem C10_sector_table_permutation_witness :
    dart_result_for_point bSample 0 (-65) =
      some ⟨"T20", BoardRing.TRIPLE, some 20, 60⟩ ∧
    ∃ n, (some 20 : Option ℕ) = some n ∧ 1 ≤ n ∧ n ≤ 20 ∧ (60 : ℕ) ≤ 60 := by
  refine ⟨bSample_triple_result, ?_⟩
  exact C10_sector_table_permutation.2 bSample 0 (-65) _ bSample_triple_result
    (Or.inl rfl)

/-- Claim C4 (amended theorem): provided the angle offset lies in
`[-π, 3π)` — so that the offset-adjusted angle is at most one full turn
outside `[0, 2π)` — the single correction step of the code lands the angle in
`[0, 2π)`, the sector index lies in `[0, 19]` (the code performs no
clamping), and the 20-entry table lookup succeeds for every point. -/
theorem C4_sector_index_in_range (b : DartboardModel)
    (h1 : -Real.pi ≤ b.angle_offset_radians)
    (h2 : b.angle_offset_radians < 3 * Real.pi) (x y : ℝ) :
    (0 ≤ normalizeAngle (rawAngle b x y + b.angle_offset_radians) ∧
      normalizeAngle (rawAngle b x y + b.angle_offset_radians) <
        2 * Real.pi) ∧
    0 ≤ sector_index_for_point b x y ∧ sector_index_for_point b x y ≤ 19 ∧
    ∃ n, number_for_point b x y = some n := by
  have hpi := Real.pi_pos
  have hlo : -Real.pi < rawAngle b x y := Complex.neg_pi_lt_arg _
  have hhi : rawAngle b x y ≤ Real.pi := Complex.arg_le_pi _
  have hnorm : 0 ≤ normalizeAngle (rawAngle b x y + b.angle_offset_radians) ∧
      normalizeAngle (rawAngle b x y + b.angle_offset_radians) <
        2 * Real.pi := by
    unfold normalizeAngle
    split_ifs with hc1 hc2
    · constructor <;> linarith
    · push_neg at hc1
      constructor <;> linarith
    · push_neg at hc1 hc2
      exact ⟨hc1, hc2⟩
  have hw : (0 : ℝ) < 2 * Real.pi / 20 := by positivity
  have hr0 : 0 ≤ normalizeAngle (rawAngle b x y + b.angle_offset_radians) /
      (2 * Real.pi / 20) := div_nonneg hnorm.1 (le_of_lt hw)
  have hr20 : normalizeAngle (rawAngle b x y + b.angle_offset_radians) /
      (2 * Real.pi / 20) < 20 := by
    rw [div_lt_iff₀ hw]
    calc normalizeAngle (rawAngle b x y + b.angle_offset_radians)
        < 2 * Real.pi := hnorm.2
      _ = 20 * (2 * Real.pi / 20) := by ring
  have hidx : sector_index_for_point b x y =
      ⌊normalizeAngle (rawAngle b x y + b.angle_offset_radians) /
        (2 * Real.pi / 20)⌋ := by
    unfold sector_index_for_point intTrunc
    rw [if_neg (not_lt.mpr hr0)]
  have h0 : 0 ≤ sector_index_for_point b x y := by
    rw [hidx]
    exact Int.le_floor.mpr (by exact_mod_cast hr0)
  have h19 : sector_index_for_point b x y ≤ 19 := by
    rw [hidx]
    have : ⌊normalizeAngle (rawAngle b x y + b.angle_offset_radians) /
        (2 * Real.pi / 20)⌋ < 20 := Int.floor_lt.mpr (by exact_mod_cast hr20)
    omega
  refine ⟨hnorm, h0, h19, ?_⟩
  have hlen : (sector_index_for_point b x y).toNat < SECTOR_NUMBERS.length := by
    rw [show SECTOR_NUMBERS.length = 20 from rfl]
    omega
  refine ⟨SECTOR_NUMBERS.get ⟨(sector_index_for_point b x y).toNat, hlen⟩, ?_⟩
  unfold number_for_point pyListGet
  rw [if_pos h0]
  exact List.get?_eq_get hlen

/-- Witness for C4 at the sample model (offset `0`) and the point `(30, 0)`. -/
theorem C4_sector_index_in_range_witness :
    (-Real.pi ≤ bSample.angle_offset_radians ∧
      bSample.angle_offset_radians < 3 * Real.pi) ∧
    (0 ≤ sector_index_for_point bSample 30 0 ∧
      sector_index_for_point bSample 30 0 ≤ 19 ∧
      ∃ n, number_for_point bSample 30 0 = some n) := by
  have hz : bSample.angle_offset_radians = 0 := rfl
  have hpi := Real.pi_pos
  have h1 : -Real.pi ≤ bSample.angle_offset_radians := by rw [hz]; linarith
  have h2 : bSample.angle_offset_radians < 3 * Real.pi := by rw [hz]; linarith
  obtain ⟨hn, hi⟩ := C4_sector_index_in_range bSample h1 h2 30 0
  exact ⟨⟨h1, h2⟩, hi⟩

/-- The raw angle of the point `(1, 0)` seen from center `(0, 0)` is `π/2`
(due right = quarter turn clockwise from straight up). -/
theorem bOffset15_raw_angle_right : rawAngle bOffset15 1 0 = Real.pi / 2 := by
  unfold rawAngle
  have hc : (⟨-((0 : ℝ) - bOffset15.cy), (1 : ℝ) - bOffset15.cx⟩ : ℂ) =
      Complex.I := by
    apply Complex.ext <;> norm_num [bOffset15, Complex.I_re, Complex.I_im]
  rw [hc]
  exact Complex.arg_I

/-- Claim C4 (counterexample): with angle offset `15` radians — a value an
unvalidated `rings.json` can supply — the point `(1, 0)` is assigned sector
index `32`: the single correction step fails to land the angle in `[0, 2π)`,
the index is outside `[0, 19]`, and the 20-entry table lookup raises
`IndexError` (`none`), refuting the claim for arbitrary offsets. -/
theorem C4_counterexample :
    sector_index_for_point bOffset15 1 0 = 32 ∧
      ¬ sector_index_for_point bOffset15 1 0 ≤ 19 ∧
      number_for_point bOffset15 1 0 = none := by
  have hpi := Real.pi_pos
  have hp2 : Real.pi < 3.15 := Real.pi_lt_d2
  have hp1 : 3.14 < Real.pi := Real.pi_gt_d2
  have harg : rawAngle bOffset15 1 0 + bOffset15.angle_offset_radians =
      Real.pi / 2 + 15 := by
    rw [bOffset15_raw_angle_right, show bOffset15.angle_offset_radians = 15
      from rfl]
  have hnorm : normalizeAngle (Real.pi / 2 + 15) =
      Real.pi / 2 + 15 - 2 * Real.pi := by
    unfold normalizeAngle
    rw [if_neg (by linarith), if_pos (by unfold GE.ge; linarith)]
  have hw : (0 : ℝ) < 2 * Real.pi / 20 := by positivity
  have hfloor : sector_index_for_point bOffset15 1 0 = 32 := by
    unfold sector_index_for_point
    rw [harg, hnorm]
    unfold intTrunc
    rw [if_neg (not_lt.mpr (div_nonneg (by linarith) (le_of_lt hw)))]
    rw [Int.floor_eq_iff]
    constructor
    · rw [le_div_iff₀ hw]
      push_cast
      linarith
    · rw [div_lt_iff₀ hw]
      push_cast
      linarith
  refine ⟨hfloor, ?_, ?_⟩
  · rw [hfloor]
    decide
  · unfold number_for_point
    rw [hfloor]
    rfl

/-- Distance of the point `(0, -65)` from the center of the offset-15 model. -/
theorem bOffset15_dist_65 : distance_from_center bOffset15 0 (-65) = 65 := by
  unfold distance_from_center
  rw [show ((0 : ℝ) - bOffset15.cx) * (0 - bOffset15.cx) +
      ((-65 : ℝ) - bOffset15.cy) * ((-65 : ℝ) - bOffset15.cy) = 65 ^ 2 by
    norm_num [bOffset15]]
  exact Real.sqrt_sq (by norm_num)

/-- The point `(0, -65)` lies in the triple ring of the offset-15 model. -/
theorem bOffset15_ring_triple :
    ring_for_point bOffset15 0 (-65) = BoardRing.TRIPLE := by
  unfold ring_for_point
  rw [bOffset15_dist_65]
  unfold ringForDist
  split_ifs <;> first | rfl | (exfalso; norm_num [bOffset15] at *)

/-- The raw angle of `(0, -65)` (straight up) is `0` in the offset-15 model. -/
theorem bOffset15_raw_angle_up : rawAngle bOffset15 0 (-65) = 0 := by
  unfold rawAngle
  have hc : (⟨-((-65 : ℝ) - bOffset15.cy), (0 : ℝ) - bOffset15.cx⟩ : ℂ) =
      ((65 : ℝ) : ℂ) := by
    apply Complex.ext <;> norm_num [bOffset15]
  rw [hc]
  exact Complex.arg_ofReal_of_nonneg (by norm_num)

/-- With offset `15`, the straight-up point gets sector index `27`, so the
table lookup raises `IndexError`. -/
theorem bOffset15_number_none : number_for_point bOffset15 0 (-65) = none := by
  have hpi := Real.pi_pos
  have hp2 : Real.pi < 3.15 := Real.pi_lt_d2
  have hp1 : 3.14 < Real.pi := Real.pi_gt_d2
  have harg : rawAngle bOffset15 0 (-65) + bOffset15.angle_offset_radians =
      (15 : ℝ) := by
    rw [bOffset15_raw_angle_up, show bOffset15.angle_offset_radians = 15
      from rfl, zero_add]
  have hnorm : normalizeAngle (15 : ℝ) = 15 - 2 * Real.pi := by
    unfold normalizeAngle
    rw [if_neg (by norm_num), if_pos (by unfold GE.ge; linarith)]
  have hw : (0 : ℝ) < 2 * Real.pi / 20 := by positivity
  have hfloor : sector_index_for_point bOffset15 0 (-65) = 27 := by
    unfold sector_index_for_point
    rw [harg, hnorm]
    unfold intTrunc
    rw [if_neg (not_lt.mpr (div_nonneg (by linarith) (le_of_lt hw)))]
    rw [Int.floor_eq_iff]
    constructor
    · rw [le_div_iff₀ hw]
      push_cast
      linarith
    · rw [div_lt_iff₀ hw]
      push_cast
      linarith
  unfold number_for_point
  rw [hfloor]
  rfl

/-- Claim C9 (refuting theorem): with angle offset `15` radians the finite
point `(0, -65)` lies in the TRIPLE ring, yet classification produces no
record at all — the sector lookup raises `IndexError` (`none`).  The code
also contains no finiteness check and no `InvalidPointError`. -/
theorem C9_finite_point_raises :
    ring_for_point bOffset15 0 (-65) = BoardRing.TRIPLE ∧
      dart_result_for_point bOffset15 0 (-65) = none := by
  refine ⟨bOffset15_ring_triple, ?_⟩
  simp only [dart_result_for_point]
  rw [bOffset15_ring_triple, bOffset15_number_none]
  rfl
